import Mathlib

/-
Verification of the pdf_copy_annotations utilities: a shallow embedding of
the repository's Python scripts (copy_pdf_annotations.py, debug_annotations.py,
detect_flattened_annotations.py, ocr_annotation_detector.py) and proofs of
the specified properties.  PDF documents are modelled as lists of pages;
library values produced by the wrapped native PDF / image libraries are
modelled as records carrying the fields the scripts read.
-/

namespace PdfAnnots

/-- ASCII lower-casing of a single character, as Python str.lower acts on the
ASCII strings this program compares. -/
def asciiLower (c : Char) : Char :=
  if 'A' ≤ c ∧ c ≤ 'Z' then Char.ofNat (c.toNat + 32) else c

/-- Python str.lower for ASCII strings (annotation type names are ASCII). -/
def pyLower (s : String) : String :=
  String.mk (s.data.map asciiLower)

/-- One annotation object as the scripts read it from the PDF library:
annot.type is the pair (numeric code, type string); the remaining fields are
the attributes _extract_annotation_data copies. -/
structure Annot where
  typeNum : Int
  typeStr : String
  content : String
  rect : ℚ × ℚ × ℚ × ℚ
  page : Int
  flags : Int
  lineEnds : Option (Int × Int)
  border : List (String × Int)
  colors : Option (Option (ℚ × ℚ × ℚ) × Option (ℚ × ℚ × ℚ))
  infoTitle : String
  infoSubject : String
  opacity : ℚ
  fontsize : ℚ
  fontname : String
deriving DecidableEq

/-- The dictionary _extract_annotation_data builds from one annotation:
the copied attributes, plus the font fields added only for 'text' and
'freetext' annotations. -/
structure AnnotData where
  typeNum : Int
  typeStr : String
  content : String
  rect : ℚ × ℚ × ℚ × ℚ
  page : Int
  flags : Int
  lineEnds : Option (Int × Int)
  border : List (String × Int)
  colors : Option (Option (ℚ × ℚ × ℚ) × Option (ℚ × ℚ × ℚ))
  author : String
  subject : String
  opacity : ℚ
  fontsize? : Option ℚ
  fontname? : Option String
  textColor? : Option (ℚ × ℚ × ℚ)
deriving DecidableEq

/-- Embedding of _extract_annotation_data (copy_pdf_annotations.py lines
376-398): copy the attributes into a dictionary; for 'text' / 'freetext'
annotations also record fontsize, fontname and the stroke colour
(defaulting to black (0,0,0) when absent). -/
def _extract_annotation_data (a : Annot) : AnnotData :=
  let isTextType := pyLower a.typeStr = "text" ∨ pyLower a.typeStr = "freetext"
  { typeNum := a.typeNum
    typeStr := a.typeStr
    content := a.content
    rect := a.rect
    page := a.page
    flags := a.flags
    lineEnds := a.lineEnds
    border := a.border
    colors := a.colors
    author := a.infoTitle
    subject := a.infoSubject
    opacity := a.opacity
    fontsize? := if isTextType then some a.fontsize else none
    fontname? := if isTextType then some a.fontname else none
    textColor? :=
      if isTextType then some ((a.colors.bind Prod.fst).getD (0, 0, 0)) else none }

/-- The per-page extraction loop that appears verbatim in both
_get_annotations_standard (lines 262-272) and
_get_annotations_memory_efficient (lines 342-352): for each annotation of
the page, when its type string lower-cased is not "highlight", append the
extracted record. -/
def pageKeptAnnots (page : List Annot) : List AnnotData :=
  page.foldl
    (fun acc a =>
      if pyLower a.typeStr ≠ "highlight" then acc ++ [_extract_annotation_data a] else acc)
    []

/-- The accumulator-passing loop of pageKeptAnnots is filter-then-map. -/
theorem pageKeptAnnots_eq_filterMap (page : List Annot) :
    pageKeptAnnots page
      = (page.filter (fun x => pyLower x.typeStr ≠ "highlight")).map _extract_annotation_data := by
  have h : ∀ (l : List Annot) (acc : List AnnotData),
      l.foldl
        (fun acc a =>
          if pyLower a.typeStr ≠ "highlight" then acc ++ [_extract_annotation_data a] else acc)
        acc
        = acc ++ (l.filter (fun x => pyLower x.typeStr ≠ "highlight")).map _extract_annotation_data := by
    intro l
    induction l with
    | nil => intro acc; simp
    | cons a t ih =>
        intro acc
        by_cases hk : pyLower a.typeStr = "highlight"
        · rw [List.foldl_cons, if_neg (by simp [hk]), ih, List.filter_cons,
            if_neg (by simp [hk])]
        · rw [List.foldl_cons, if_pos hk, ih, List.filter_cons, if_pos (by simpa using hk)]
          simp
  simpa [pageKeptAnnots] using h page []

/-- C1: an annotation of a processed page is extracted for copying iff its
type string, compared case-insensitively (lower-cased), is not 'highlight':
the kept list of a page is exactly the lower-case-ne-"highlight" filter of
the page's annotations (mapped through the data extractor), and membership
in that filter holds iff the annotation is on the page and its lower-cased
type differs from "highlight". -/
theorem c1_non_highlight_filter (page : List Annot) (a : Annot) :
    pageKeptAnnots page
      = (page.filter (fun x => pyLower x.typeStr ≠ "highlight")).map _extract_annotation_data
    ∧ (a ∈ page.filter (fun x => pyLower x.typeStr ≠ "highlight")
        ↔ a ∈ page ∧ pyLower a.typeStr ≠ "highlight") := by
  refine ⟨pageKeptAnnots_eq_filterMap page, ?_⟩
  simp [List.mem_filter]

/-! Document-level extraction (claims C10 and C7).  A PDF document, for the
annotation-reading scripts, is its list of pages, each page its list of
annotations; fitz.open is modelled by an `Option` (none = any failure raised
while opening/reading the source PDF, caught by the scripts' handlers). -/

/-- A PDF document as the annotation scripts read it: one annotation list per
page. -/
abbrev PdfDoc := List (List Annot)

/-- Configuration default MEMORY_EFFICIENT = True (copy_pdf_annotations.py
line 81). -/
def MEMORY_EFFICIENT : Bool := true

/-- Pages to process (copy_pdf_annotations.py lines 234-245 and 306-316):
all pages when no filter is given, else the sorted filter entries that exist
in the document. -/
def pagesToProcess (totalPages : ℕ) (pageFilter : Option (Finset ℕ)) : List ℕ :=
  match pageFilter with
  | none => List.range totalPages
  | some pf => (pf.sort (· ≤ ·)).filter (fun p => p < totalPages)

/-- Body of the per-page loop of both extraction variants (lines 254-281 and
333-361): extract the page's non-highlight annotations and record the page
in the result dictionary when at least one was kept. -/
def pageStep (doc : PdfDoc) (m : List (ℕ × List AnnotData)) (pn : ℕ) :
    List (ℕ × List AnnotData) :=
  if pageKeptAnnots (doc.getD pn []) ≠ [] then
    m ++ [(pn, pageKeptAnnots (doc.getD pn []))]
  else m

/-- Embedding of _get_annotations_standard (lines 225-292): on any exception
return the empty dictionary, else fold the page loop over the pages to
process. -/
def _get_annotations_standard (openResult : Option PdfDoc) (pageFilter : Option (Finset ℕ)) :
    List (ℕ × List AnnotData) :=
  match openResult with
  | none => []
  | some doc => (pagesToProcess doc.length pageFilter).foldl (pageStep doc) []

/-- Python range(start, stop, step) for the batch starts of the
memory-efficient loop (line 322). -/
def rangeStep (stop step : ℕ) (start : ℕ) : List ℕ :=
  if _h : start < stop ∧ 1 ≤ step then start :: rangeStep stop step (start + step)
  else []
termination_by stop - start
decreasing_by omega

/-- Embedding of _get_annotations_memory_efficient (lines 295-373): same page
loop, run batch by batch with batch size max(1, min(10, n/4)); on any
exception return the empty dictionary. -/
def _get_annotations_memory_efficient (openResult : Option PdfDoc) (pageFilter : Option (Finset ℕ)) :
    List (ℕ × List AnnotData) :=
  match openResult with
  | none => []
  | some doc =>
      let pages := pagesToProcess doc.length pageFilter
      let bs := max 1 (min 10 (pages.length / 4))
      (rangeStep pages.length bs 0).foldl
        (fun m s => ((pages.drop s).take bs).foldl (pageStep doc) m) []

/-- Embedding of get_non_highlight_annotations (lines 208-222): dispatch on
the MEMORY_EFFICIENT configuration flag. -/
def get_non_highlight_annotations (openResult : Option PdfDoc) (pageFilter : Option (Finset ℕ)) :
    List (ℕ × List AnnotData) :=
  if MEMORY_EFFICIENT then _get_annotations_memory_efficient openResult pageFilter
  else _get_annotations_standard openResult pageFilter

/-- Folding a guarded-append body is filter-then-map after the accumulator. -/
theorem foldl_if_append {α β : Type} (p : α → Prop) [DecidablePred p] (g : α → β) :
    ∀ (l : List α) (init : List β),
      l.foldl (fun m x => if p x then m ++ [g x] else m) init
        = init ++ (l.filter (fun x => decide (p x))).map g := by
  intro l
  induction l with
  | nil => intro init; simp
  | cons a t ih =>
      intro init
      by_cases hk : p a
      · rw [List.foldl_cons, if_pos hk, ih, List.filter_cons, if_pos (by simpa using hk)]
        simp
      · rw [List.foldl_cons, if_neg hk, ih, List.filter_cons, if_neg (by simpa using hk)]

/-- The standard extraction is the filtered association list of pages that
keep at least one annotation. -/
theorem _get_annotations_standard_eq (doc : PdfDoc) (pageFilter : Option (Finset ℕ)) :
    _get_annotations_standard (some doc) pageFilter
      = ((pagesToProcess doc.length pageFilter).filter
            (fun pn => decide (pageKeptAnnots (doc.getD pn []) ≠ []))).map
          (fun pn => (pn, pageKeptAnnots (doc.getD pn []))) := by
  show (pagesToProcess doc.length pageFilter).foldl (pageStep doc) [] = _
  have hfun : pageStep doc = fun m pn =>
      if pageKeptAnnots (doc.getD pn []) ≠ [] then
        m ++ [(pn, pageKeptAnnots (doc.getD pn []))]
      else m := rfl
  rw [hfun, foldl_if_append (fun pn => pageKeptAnnots (doc.getD pn []) ≠ [])
    (fun pn => (pn, pageKeptAnnots (doc.getD pn [])))]
  simp

/-- Batch-by-batch folding over the stepped range of batch starts is folding
over the whole list. -/
theorem rangeStep_foldl {α β : Type} (f : β → α → β) (l : List α) (bs : ℕ) (hbs : 1 ≤ bs) :
    ∀ (start : ℕ) (init : β),
      (rangeStep l.length bs start).foldl
          (fun m s => ((l.drop s).take bs).foldl f m) init
        = (l.drop start).foldl f init := by
  have key : ∀ (k start : ℕ), l.length - start ≤ k → ∀ init : β,
      (rangeStep l.length bs start).foldl
          (fun m s => ((l.drop s).take bs).foldl f m) init
        = (l.drop start).foldl f init := by
    intro k
    induction k with
    | zero =>
        intro start hstart init
        have hge : l.length ≤ start := by omega
        rw [rangeStep, dif_neg (by omega)]
        simp [List.drop_eq_nil_of_le hge]
    | succ k ih =>
        intro start hstart init
        by_cases hlt : start < l.length
        · rw [rangeStep, dif_pos ⟨hlt, hbs⟩, List.foldl_cons]
          rw [ih (start + bs) (by omega)]
          have hsplit : l.drop start
              = (l.drop start).take bs ++ l.drop (start + bs) := by
            rw [← List.drop_drop]
            exact (List.take_append_drop bs (l.drop start)).symm
          conv_rhs => rw [hsplit]
          rw [List.foldl_append]
        · rw [rangeStep, dif_neg (by omega)]
          simp [List.drop_eq_nil_of_le (by omega : l.length ≤ start)]
  intro start init
  exact key (l.length - start) start le_rfl init

/-- The memory-efficient extraction computes the same dictionary as the
standard one. -/
theorem _get_annotations_memory_efficient_eq_standard (openResult : Option PdfDoc)
    (pageFilter : Option (Finset ℕ)) :
    _get_annotations_memory_efficient openResult pageFilter = _get_annotations_standard openResult pageFilter := by
  cases openResult with
  | none => rfl
  | some doc =>
      show (rangeStep (pagesToProcess doc.length pageFilter).length _ 0).foldl _ []
          = (pagesToProcess doc.length pageFilter).foldl (pageStep doc) []
      rw [rangeStep_foldl (pageStep doc) (pagesToProcess doc.length pageFilter)
        (max 1 (min 10 ((pagesToProcess doc.length pageFilter).length / 4)))
        (le_max_left 1 _) 0 []]
      rw [List.drop_zero]

/-- C10: get_non_highlight_annotations never propagates an exception — any
failure while reading the source PDF yields the empty dictionary — and on
success the dictionary's keys (for either extraction variant) are exactly
the processed page indices whose page holds at least one non-highlight
annotation. -/
theorem c10_get_non_highlight_total (pageFilter : Option (Finset ℕ)) (pn : ℕ) :
    get_non_highlight_annotations none pageFilter = []
  ∧ _get_annotations_standard none pageFilter = []
  ∧ _get_annotations_memory_efficient none pageFilter = []
  ∧ (∀ doc : PdfDoc,
      _get_annotations_memory_efficient (some doc) pageFilter = _get_annotations_standard (some doc) pageFilter
      ∧ (pn ∈ (_get_annotations_standard (some doc) pageFilter).map Prod.fst
          ↔ pn ∈ pagesToProcess doc.length pageFilter
            ∧ ∃ a ∈ doc.getD pn [], pyLower a.typeStr ≠ "highlight")) := by
  refine ⟨rfl, rfl, rfl, fun doc => ⟨_get_annotations_memory_efficient_eq_standard _ _, ?_⟩⟩
  rw [_get_annotations_standard_eq]
  have hkept : (pageKeptAnnots (doc.getD pn []) ≠ [])
      ↔ ∃ a ∈ doc.getD pn [], pyLower a.typeStr ≠ "highlight" := by
    rw [pageKeptAnnots_eq_filterMap]
    simp only [ne_eq, List.map_eq_nil_iff, List.filter_eq_nil_iff]
    push_neg
    simp
  constructor
  · intro hmem
    simp only [List.map_map, List.mem_map, Function.comp] at hmem
    obtain ⟨q, hq, hqe⟩ := hmem
    rw [List.mem_filter] at hq
    refine ⟨by simpa [hqe] using hq.1, ?_⟩
    rw [← hkept]
    have := hq.2
    simp only [decide_eq_true_eq] at this
    simpa [← hqe] using this
  · rintro ⟨hin, hex⟩
    simp only [List.map_map, List.mem_map, Function.comp]
    refine ⟨pn, ?_, rfl⟩
    rw [List.mem_filter]
    refine ⟨hin, ?_⟩
    simp only [decide_eq_true_eq]
    exact hkept.mpr hex

/-- One report line of debug_pdf_annotations: the page index, the annotation,
and whether the script marks it "would be EXCLUDED by main script" (its type
string lower-cased equals "highlight"). -/
structure DebugLine where
  pageNum : ℕ
  annot : Annot
  excluded : Bool
deriving DecidableEq

/-- Embedding of debug_pdf_annotations (debug_annotations.py lines 13-94):
on failure return no report and False; else report every annotation of every
page with its excluded/included marker and return whether the total
annotation count is positive. -/
def debug_pdf_annotations (openResult : Option PdfDoc) : List DebugLine × Bool :=
  match openResult with
  | none => ([], false)
  | some doc =>
      let reportLines := (List.range doc.length).flatMap (fun pn =>
        (doc.getD pn []).map (fun a =>
          { pageNum := pn, annot := a,
            excluded := decide (pyLower a.typeStr = "highlight") : DebugLine }))
      (reportLines, decide (0 < reportLines.length))

/-- C7: debug_pdf_annotations reports every annotation of every page — each
with the marker excluded (true exactly for case-insensitive highlights,
which the copy utility drops) — and returns True iff at least one
annotation exists in the document. -/
theorem c7_debug_reports_everything (doc : PdfDoc) :
    (∀ pn, pn < doc.length → ∀ a ∈ doc.getD pn [],
        ({ pageNum := pn, annot := a,
           excluded := decide (pyLower a.typeStr = "highlight") } : DebugLine)
          ∈ (debug_pdf_annotations (some doc)).1)
  ∧ (∀ dl ∈ (debug_pdf_annotations (some doc)).1,
        dl.excluded = true ↔ pyLower dl.annot.typeStr = "highlight")
  ∧ ((debug_pdf_annotations (some doc)).2 = true
      ↔ ∃ pn, pn < doc.length ∧ ∃ a, a ∈ doc.getD pn []) := by
  refine ⟨?_, ?_, ?_⟩
  · intro pn hpn a ha
    simp only [debug_pdf_annotations, List.mem_flatMap, List.mem_map]
    exact ⟨pn, by simpa using hpn, a, ha, rfl⟩
  · intro dl hdl
    simp only [debug_pdf_annotations, List.mem_flatMap, List.mem_map] at hdl
    obtain ⟨pn, _, a, _, rfl⟩ := hdl
    simp
  · simp only [debug_pdf_annotations, decide_eq_true_eq, List.length_pos_iff_ne_nil, ne_eq,
      List.flatMap_eq_nil_iff, List.map_eq_nil_iff, not_forall]
    constructor
    · rintro ⟨l, hl, hne⟩
      simp only [List.mem_range] at hl
      exact ⟨l, hl, by
        rcases List.exists_mem_of_ne_nil _ hne with ⟨a, ha⟩
        exact ⟨a, ha⟩⟩
    · rintro ⟨pn, hpn, a, ha⟩
      exact ⟨pn, by simpa using hpn, List.ne_nil_of_mem ha⟩

/-! File-system effects of the copy utility (claim C4).  The file system is a
map from paths to the PDF documents stored there; each script run turns one
file system into the next. -/

/-- The file system: each path either holds a PDF document or nothing. -/
abbrev FileSys := String → Option PdfDoc

/-- Embedding of _copy_single_annotation (lines 499-553): build the new
annotation on the target page from one extracted record — content, flags,
colours, border, line ends, opacity, author/subject, and for 'text' /
'freetext' records the font fields with the saved text colour as stroke. -/
def copySingleAnnot (d : AnnotData) : Annot :=
  let isTextType := (pyLower d.typeStr = "text" ∨ pyLower d.typeStr = "freetext")
      ∧ d.fontsize?.isSome
  { typeNum := d.typeNum
    typeStr := d.typeStr
    content := d.content
    rect := d.rect
    page := d.page
    flags := d.flags
    lineEnds := d.lineEnds
    border := d.border
    colors :=
      if isTextType ∧ d.textColor?.isSome then
        some (d.textColor?, d.colors.bind Prod.snd)
      else d.colors
    infoTitle := d.author
    infoSubject := d.subject
    opacity := d.opacity
    fontsize := d.fontsize?.getD 12
    fontname := d.fontname?.getD "Helvetica" }

/-- The in-memory modification of the opened target document
(copy_annotations_to_pdf lines 424-445, and the batched variant lines
459-496, which applies the same per-annotation updates in flattened order):
for each dictionary entry whose page exists in the target, add the copied
annotations to that page; entries beyond the target's page count are
skipped with a warning. -/
def addAnnotsToDoc (doc : PdfDoc) (annsByPage : List (ℕ × List AnnotData)) : PdfDoc :=
  annsByPage.foldl
    (fun d pa =>
      if pa.1 < d.length then d.set pa.1 (d.getD pa.1 [] ++ pa.2.map copySingleAnnot)
      else d)
    doc

/-- Embedding of copy_annotations_to_pdf (lines 401-456): open the target
path (any exception is caught and leaves the file system as it was), apply
the annotation additions to the document in memory, and save the modified
document at output_path — the one write of the whole run. -/
def copy_annotations_to_pdf (fs : FileSys) (targetPath : String)
    (annsByPage : List (ℕ × List AnnotData)) (outputPath : String) : FileSys :=
  match fs targetPath with
  | none => fs
  | some doc =>
      let newDoc := addAnnotsToDoc doc annsByPage
      fun p => if p = outputPath then some newDoc else fs p

/-- The copy utility's run after argument handling (main, lines 606-624):
extract the non-highlight annotations from the source path (a read), exit
without copying when none were found, else copy them onto the target and
save at the output path. -/
def runCopy (fs : FileSys) (sourcePath targetPath outputPath : String)
    (pageFilter : Option (Finset ℕ)) : FileSys :=
  let anns := get_non_highlight_annotations (fs sourcePath) pageFilter
  if anns = [] then fs
  else copy_annotations_to_pdf fs targetPath anns outputPath

/-- C4: a run of the copy utility changes no path other than the output
path; in particular, when the output path is distinct from the source and
target paths, the source PDF and the target PDF on disk are left unchanged,
and the combined result appears only at the output path. -/
theorem c4_copy_writes_only_output (fs : FileSys)
    (sourcePath targetPath outputPath : String) (pageFilter : Option (Finset ℕ))
    (hs : sourcePath ≠ outputPath) (ht : targetPath ≠ outputPath) :
    runCopy fs sourcePath targetPath outputPath pageFilter sourcePath = fs sourcePath
  ∧ runCopy fs sourcePath targetPath outputPath pageFilter targetPath = fs targetPath
  ∧ ∀ p, p ≠ outputPath →
      runCopy fs sourcePath targetPath outputPath pageFilter p = fs p := by
  have frame : ∀ p, p ≠ outputPath →
      runCopy fs sourcePath targetPath outputPath pageFilter p = fs p := by
    intro p hp
    unfold runCopy copy_annotations_to_pdf
    by_cases hempty : get_non_highlight_annotations (fs sourcePath) pageFilter = []
    · simp [hempty]
    · rw [if_neg hempty]
      cases htgt : fs targetPath with
      | none => rfl
      | some doc => simp [hp]
  exact ⟨frame sourcePath hs, frame targetPath ht, frame⟩

/-- A concrete file system holding a one-page annotated source and a
one-page target, for instantiating the C4 frame theorem. -/
def fsExample : FileSys := fun p =>
  if p = "source.pdf" then
    some [[{ typeNum := 8, typeStr := "Square", content := "box", rect := (0, 0, 1, 1),
             page := 0, flags := 0, lineEnds := none, border := [], colors := none,
             infoTitle := "au", infoSubject := "", opacity := 1, fontsize := 12,
             fontname := "Helvetica" }]]
  else if p = "target.pdf" then some [[]]
  else none

/-- Witness for C4 at a concrete file system and concrete distinct paths. -/
theorem c4_copy_writes_only_output_witness :
    runCopy fsExample "source.pdf" "target.pdf" "output.pdf" none "source.pdf"
        = fsExample "source.pdf"
    ∧ runCopy fsExample "source.pdf" "target.pdf" "output.pdf" none "target.pdf"
        = fsExample "target.pdf"
    ∧ ∀ p, p ≠ "output.pdf" →
        runCopy fsExample "source.pdf" "target.pdf" "output.pdf" none p = fsExample p :=
  c4_copy_writes_only_output fsExample "source.pdf" "target.pdf" "output.pdf" none
    (by decide) (by decide)

/-! Page-specification parsing (claim C8).  parse_page_specification works on
ordinary Python strings; the Python primitives it relies on — str.strip,
str.split, int() — are embedded below over Lean strings. -/

/-- ASCII whitespace as Python str.strip removes for these inputs: space,
tab, newline, carriage return, vertical tab, form feed. -/
def isPySpace (c : Char) : Bool :=
  c = ' ' ∨ c = '\t' ∨ c = '\n' ∨ c = '\r' ∨ c = Char.ofNat 11 ∨ c = Char.ofNat 12

/-- Python str.strip: drop leading and trailing whitespace. -/
def pyStrip (s : String) : String :=
  String.mk (((s.data.dropWhile isPySpace).reverse.dropWhile isPySpace).reverse)

/-- An ASCII decimal digit. -/
def isAsciiDigit (c : Char) : Bool := '0' ≤ c ∧ c ≤ '9'

/-- Digit run of a Python integer literal after its first digit: digits,
optionally separated by single underscores (no trailing or doubled
underscore), accumulated into the value. -/
def digitsCore : List Char → ℕ → Option ℕ
  | [], acc => some acc
  | c :: rest, acc =>
      if isAsciiDigit c then digitsCore rest (10 * acc + (c.toNat - 48))
      else if c = '_' then
        match rest with
        | d :: rest2 =>
            if isAsciiDigit d then digitsCore rest2 (10 * acc + (d.toNat - 48))
            else none
        | [] => none
      else none

/-- Unsigned part of a Python integer literal: at least one digit first. -/
def parseUDigits : List Char → Option ℕ
  | [] => none
  | c :: rest => if isAsciiDigit c then digitsCore rest (c.toNat - 48) else none

/-- Python int() on a string: strip whitespace, optional single sign, then a
digit run; none models the ValueError int() raises otherwise. -/
def pyInt? (s : String) : Option ℤ :=
  match (pyStrip s).data with
  | '+' :: rest => (parseUDigits rest).map (fun n => (n : ℤ))
  | '-' :: rest => (parseUDigits rest).map (fun n => -(n : ℤ))
  | cs => (parseUDigits cs).map (fun n => (n : ℤ))

/-- Python spec.split('-', 1) for a string containing '-': the part before
the first '-' and the part after it. -/
def splitFirstDash : List Char → List Char × List Char
  | [] => ([], [])
  | c :: rest =>
      if c = '-' then ([], rest)
      else
        let p := splitFirstDash rest
        (c :: p.1, p.2)

/-- One comma component of parse_page_specification (lines 128-162): strip
it; a component containing '-' is a range — parse both sides with int(),
demand both at least 1 and start at most end, and contribute the zero-based
pages start-1 .. end-1 (range(start-1, end)); any other component is a
single page — parse with int(), demand at least 1, contribute page-1.
none models every ValueError the branch raises. -/
def parseSpecItem (item : String) : Option (Finset ℕ) :=
  let spec := pyStrip item
  if spec.data.contains '-' then
    match pyInt? (String.mk (splitFirstDash spec.data).1),
        pyInt? (String.mk (splitFirstDash spec.data).2) with
    | some st, some en =>
        if st < 1 ∨ en < 1 then none
        else if en < st then none
        else some (List.range' (st - 1).toNat (en - st + 1).toNat).toFinset
    | _, _ => none
  else
    match pyInt? spec with
    | some p => if p < 1 then none else some {(p - 1).toNat}
    | none => none

/-- Accumulating step of the parse loop: propagate an earlier error, or fail
on this component, or add its pages to the set. -/
def parseAccStep (acc : Option (Finset ℕ)) (item : String) : Option (Finset ℕ) :=
  match acc, parseSpecItem item with
  | some st, some ps => some (st ∪ ps)
  | _, _ => none

/-- Embedding of parse_page_specification (copy_pdf_annotations.py lines
104-164): reject an empty or whitespace-only string, else split on commas
and accumulate each component's pages; none models the raised ValueError. -/
def parse_page_specification (s : String) : Option (Finset ℕ) :=
  if pyStrip s = "" then none
  else (s.splitOn ",").foldl parseAccStep (some (∅ : Finset ℕ))

/-- An error is absorbing in the parse loop. -/
theorem foldl_parseAccStep_none (items : List String) :
    items.foldl parseAccStep none = none := by
  induction items with
  | nil => rfl
  | cons it rest ih => simpa [parseAccStep] using ih

/-- The parse loop fails iff some component fails. -/
theorem foldl_parseAccStep_eq_none (items : List String) :
    ∀ A : Finset ℕ,
      (items.foldl parseAccStep (some A) = none
        ↔ ∃ it ∈ items, parseSpecItem it = none) := by
  induction items with
  | nil => intro A; simp
  | cons it rest ih =>
      intro A
      rw [List.foldl_cons]
      cases hit : parseSpecItem it with
      | none =>
          simp only [parseAccStep, hit]
          rw [foldl_parseAccStep_none]
          simp only [true_iff]
          exact ⟨it, List.mem_cons_self it rest, hit⟩
      | some ps =>
          simp only [parseAccStep, hit]
          rw [ih (A ∪ ps)]
          constructor
          · rintro ⟨x, hx, he⟩
            exact ⟨x, List.mem_cons_of_mem it hx, he⟩
          · rintro ⟨x, hx, he⟩
            rcases List.mem_cons.mp hx with rfl | hx2
            · rw [he] at hit; cases hit
            · exact ⟨x, hx2, he⟩

/-- On success the parse loop computes the accumulated union of the
components' page sets. -/
theorem foldl_parseAccStep_mem (items : List String) :
    ∀ (A S : Finset ℕ), items.foldl parseAccStep (some A) = some S →
      ∀ k : ℕ, k ∈ S ↔ k ∈ A ∨ ∃ it ∈ items, ∃ T, parseSpecItem it = some T ∧ k ∈ T := by
  induction items with
  | nil =>
      intro A S hS k
      simp only [List.foldl_nil, Option.some.injEq] at hS
      subst hS
      simp
  | cons it rest ih =>
      intro A S hS k
      rw [List.foldl_cons] at hS
      cases hit : parseSpecItem it with
      | none =>
          rw [show parseAccStep (some A) it = none by simp [parseAccStep, hit],
            foldl_parseAccStep_none] at hS
          cases hS
      | some ps =>
          rw [show parseAccStep (some A) it = some (A ∪ ps) by simp [parseAccStep, hit]] at hS
          rw [ih (A ∪ ps) S hS k]
          constructor
          · rintro (hk | ⟨x, hx, T, hT, hkT⟩)
            · rcases Finset.mem_union.mp hk with hk | hk
              · exact Or.inl hk
              · exact Or.inr ⟨it, List.mem_cons_self it rest, ps, hit, hk⟩
            · exact Or.inr ⟨x, List.mem_cons_of_mem it hx, T, hT, hkT⟩
          · rintro (hk | ⟨x, hx, T, hT, hkT⟩)
            · exact Or.inl (Finset.mem_union_left _ hk)
            · rcases List.mem_cons.mp hx with rfl | hx2
              · rw [hit] at hT
                cases hT
                exact Or.inl (Finset.mem_union_right _ hkT)
              · exact Or.inr ⟨x, hx2, T, hT, hkT⟩

/-- Membership in the zero-based page set a valid range contributes. -/
theorem mem_range_pages (st en : ℤ) (h1 : 1 ≤ st) (h2 : st ≤ en) (k : ℕ) :
    (k ∈ (List.range' (st - 1).toNat (en - st + 1).toNat).toFinset
      ↔ (st - 1).toNat ≤ k ∧ k ≤ (en - 1).toNat) := by
  rw [List.mem_toFinset, List.mem_range'_1]
  omega

/-- C8: parse_page_specification turns a comma-separated list of 1-based
pages and ranges into the set of zero-based indices covered — each number p
contributes p-1, each range a-b with 1 <= a <= b contributes a-1 through
b-1 — and raises ValueError (modelled by none) exactly when the string is
empty or whitespace-only, when a component (or range side) is not numeric,
when a parsed page number is below 1, or when a range's start exceeds its
end. -/
theorem c8_parse_page_specification (s item : String) (st en p : ℤ)
    (S T : Finset ℕ) (k : ℕ) :
    (pyStrip s = "" → parse_page_specification s = none)
  ∧ (pyStrip s ≠ "" →
      (parse_page_specification s = none
        ↔ ∃ it ∈ s.splitOn ",", parseSpecItem it = none))
  ∧ (parse_page_specification s = some S →
      (k ∈ S ↔ ∃ it ∈ s.splitOn ",", ∃ T2, parseSpecItem it = some T2 ∧ k ∈ T2))
  ∧ ((pyStrip item).data.contains '-' = true →
      ((pyInt? (String.mk (splitFirstDash (pyStrip item).data).1) = none
          ∨ pyInt? (String.mk (splitFirstDash (pyStrip item).data).2) = none)
        → parseSpecItem item = none)
      ∧ (pyInt? (String.mk (splitFirstDash (pyStrip item).data).1) = some st →
          pyInt? (String.mk (splitFirstDash (pyStrip item).data).2) = some en →
          (parseSpecItem item = none ↔ st < 1 ∨ en < 1 ∨ en < st)
          ∧ (parseSpecItem item = some T →
              (k ∈ T ↔ (st - 1).toNat ≤ k ∧ k ≤ (en - 1).toNat))))
  ∧ ((pyStrip item).data.contains '-' = false →
      (pyInt? (pyStrip item) = none → parseSpecItem item = none)
      ∧ (pyInt? (pyStrip item) = some p →
          (parseSpecItem item = none ↔ p < 1)
          ∧ (parseSpecItem item = some T → T = {(p - 1).toNat}))) := by
  refine ⟨?_, ?_, ?_, ?_, ?_⟩
  · intro h
    simp [parse_page_specification, h]
  · intro h
    rw [parse_page_specification, if_neg h]
    exact foldl_parseAccStep_eq_none _ ∅
  · intro hS
    rw [parse_page_specification] at hS
    by_cases h : pyStrip s = ""
    · rw [if_pos h] at hS; cases hS
    · rw [if_neg h] at hS
      simpa using foldl_parseAccStep_mem _ ∅ S hS k
  · intro hdash
    constructor
    · rintro (h1 | h1)
      · simp only [parseSpecItem, hdash, if_true, h1]
      · simp only [parseSpecItem, hdash, if_true, h1]
        cases pyInt? (String.mk (splitFirstDash (pyStrip item).data).1) <;> rfl
    · intro h1 h2
      have hform : parseSpecItem item
          = (if st < 1 ∨ en < 1 then none
             else if en < st then none
             else some (List.range' (st - 1).toNat (en - st + 1).toNat).toFinset) := by
        simp only [parseSpecItem, hdash, if_true, h1, h2]
      constructor
      · rw [hform]
        by_cases hlt : st < 1 ∨ en < 1
        · simp [hlt]; omega
        · rw [if_neg hlt]
          by_cases hen : en < st
          · simp [hen]
          · simp [hen]; omega
      · intro hT
        rw [hform] at hT
        by_cases hlt : st < 1 ∨ en < 1
        · rw [if_pos hlt] at hT; cases hT
        · rw [if_neg hlt] at hT
          by_cases hen : en < st
          · rw [if_pos hen] at hT; cases hT
          · rw [if_neg hen] at hT
            cases hT
            exact mem_range_pages st en (by omega) (by omega) k
  · intro hdash
    constructor
    · intro h1
      simp only [parseSpecItem, hdash, Bool.false_eq_true, if_false, h1]
    · intro h1
      have hform : parseSpecItem item
          = (if p < 1 then none else some {(p - 1).toNat}) := by
        simp only [parseSpecItem, hdash, Bool.false_eq_true, if_false, h1]
      constructor
      · rw [hform]
        by_cases hp : p < 1
        · simp [hp]
        · simp [hp]
      · intro hT
        rw [hform] at hT
        by_cases hp : p < 1
        · rw [if_pos hp] at hT; cases hT
        · rw [if_neg hp] at hT
          cases hT
          rfl

/-! Flattened-annotation detection (claims C3 and C5,
detect_flattened_annotations.py).  A rendered page is a raster image; the
native image-library primitives the script drives — PIL resize, the cv2
RGB-to-gray pixel formula, cv2.findContours in RETR_EXTERNAL mode — are
modelled abstractly as an ImgLib record, while the pixel-wise difference and
the binary threshold are computed concretely. -/

/-- An RGB pixel. -/
abbrev RGB := ℕ × ℕ × ℕ

/-- A raster image as PIL hands it to the script: its size and its rows of
pixels. -/
structure Img where
  width : ℕ
  height : ℕ
  pix : List (List RGB)
deriving DecidableEq

/-- A contour as the script reads it back from cv2: its contourArea and its
boundingRect x, y, w, h. -/
structure Contour where
  area : ℚ
  x : ℕ
  y : ℕ
  w : ℕ
  h : ℕ
deriving DecidableEq

/-- The image-library primitives of detect_flattened_annotations.py,
modelled abstractly: PIL Image.resize to a (width, height), the cv2
RGB-to-gray pixel conversion, and cv2.findContours with RETR_EXTERNAL on a
binary image. -/
structure ImgLib where
  resize : Img → ℕ × ℕ → Img
  rgbToGray : RGB → ℕ
  findContoursExternal : List (List ℕ) → List Contour

/-- Absolute difference of two channel values. -/
def natAbsDiff (a b : ℕ) : ℕ := max a b - min a b

/-- ImageChops.difference: the pixel-wise absolute difference of two images
of equal size (line 47). -/
def imageDifference (a b : Img) : Img :=
  { width := a.width
    height := a.height
    pix := List.zipWith
      (List.zipWith (fun p q : RGB =>
        (natAbsDiff p.1 q.1, natAbsDiff p.2.1 q.2.1, natAbsDiff p.2.2 q.2.2)))
      a.pix b.pix }

/-- The grayscale conversion of an image's pixel grid (line 53). -/
def grayOf (lib : ImgLib) (img : Img) : List (List ℕ) :=
  img.pix.map (fun row => row.map lib.rgbToGray)

/-- cv2.threshold(gray, 30, 255, THRESH_BINARY) (line 56): a pixel strictly
above gray value 30 becomes 255, all others 0. -/
def threshBin30 (g : List (List ℕ)) : List (List ℕ) :=
  g.map (fun row => row.map (fun v => if 30 < v then 255 else 0))

/-- Embedding of find_differences (detect_flattened_annotations.py lines
36-61): when the two images differ in size, resize both to the smaller
common width and height; take the pixel-wise difference, convert it to
gray, threshold at 30, and extract the external contours of the result.
Returns (difference image, contours, thresholded image). -/
def find_differences (lib : ImgLib) (originalImg annotatedImg : Img) :
    Img × List Contour × List (List ℕ) :=
  let pair :=
    if (originalImg.width, originalImg.height) ≠ (annotatedImg.width, annotatedImg.height)
    then
      (lib.resize originalImg
        (min originalImg.width annotatedImg.width,
         min originalImg.height annotatedImg.height),
       lib.resize annotatedImg
        (min originalImg.width annotatedImg.width,
         min originalImg.height annotatedImg.height))
    else (originalImg, annotatedImg)
  let diff := imageDifference pair.1 pair.2
  let thresh := threshBin30 (grayOf lib diff)
  (diff, lib.findContoursExternal thresh, thresh)

/-- The record analyze_contours appends per kept contour (lines 88-93). -/
structure ContourInfo where
  type : String
  bbox : ℕ × ℕ × ℕ × ℕ
  area : ℚ
  aspect_ratio : ℚ
deriving DecidableEq

/-- The classification chain of analyze_contours (lines 76-86), in the
source's branch order, on the aspect ratio w/h. -/
def classifyAspect (ar : ℚ) : String :=
  if ar > 5 ∨ ar < 0.2 then "line/arrow"
  else if 0.8 ≤ ar ∧ ar ≤ 1.2 then "square/circle"
  else if ar > 2 then "text/rectangle"
  else "rectangle/shape"

/-- The per-contour body of analyze_contours (lines 67-93): skip a contour
whose area is below min_area, else classify it by the aspect ratio of its
bounding rectangle and record it. -/
def contourStep (minArea : ℚ) (c : Contour) : Option ContourInfo :=
  if c.area < minArea then none
  else
    some { type := classifyAspect ((c.w : ℚ) / (c.h : ℚ))
           bbox := (c.x, c.y, c.w, c.h)
           area := c.area
           aspect_ratio := (c.w : ℚ) / (c.h : ℚ) }

/-- Embedding of analyze_contours (lines 63-95) at its default
min_area (100 at the call site, line 137 via the default argument). -/
def analyze_contours (contours : List Contour) (minArea : ℚ) : List ContourInfo :=
  contours.filterMap (contourStep minArea)

/-- pdf_page_to_image (lines 22-34) against a PDF modelled by its list of
rendered pages. -/
def pdf_page_to_image (renderedPages : List Img) (pageNum : ℕ) : Img :=
  renderedPages.getD pageNum { width := 0, height := 0, pix := [] }

/-- Embedding of detect_flattened_annotations (lines 97-165): analyze the
first min(n, m) pages; for each, render both PDFs, run find_differences and
analyze_contours (min_area 100); return the per-page analyses and whether
any potential annotations were found at all. -/
def detect_flattened_annotations (lib : ImgLib)
    (originalPdf annotatedPdf : List Img) :
    List (ℕ × (Img × List Contour × List (List ℕ)) × List ContourInfo) × Bool :=
  let minPages := min originalPdf.length annotatedPdf.length
  let perPage := (List.range minPages).map (fun pageNum =>
    let fd := find_differences lib (pdf_page_to_image originalPdf pageNum)
      (pdf_page_to_image annotatedPdf pageNum)
    (pageNum, fd, analyze_contours fd.2.1 100))
  (perPage, decide (0 < (perPage.map (fun e => e.2.2.length)).sum))

/-- C3: the flattened-annotation detector processes exactly the first
min(n, m) pages; each processed page's data comes from find_differences
and analyze_contours on the two renders; and find_differences resizes both
images to the smaller common dimensions exactly when the sizes differ,
then takes the pixel-wise difference, thresholds its grayscale at gray
value 30, and extracts external contours from the thresholded difference. -/
theorem c3_detect_flattened_pipeline (lib : ImgLib)
    (originalPdf annotatedPdf : List Img) :
    (detect_flattened_annotations lib originalPdf annotatedPdf).1.map Prod.fst
      = List.range (min originalPdf.length annotatedPdf.length)
  ∧ (∀ e ∈ (detect_flattened_annotations lib originalPdf annotatedPdf).1,
      e.2.1 = find_differences lib (pdf_page_to_image originalPdf e.1)
          (pdf_page_to_image annotatedPdf e.1)
      ∧ e.2.2 = analyze_contours (e.2.1).2.1 100)
  ∧ (∀ o a : Img,
      ((o.width, o.height) = (a.width, a.height) →
        find_differences lib o a
          = (imageDifference o a,
             lib.findContoursExternal (threshBin30 (grayOf lib (imageDifference o a))),
             threshBin30 (grayOf lib (imageDifference o a))))
      ∧ ((o.width, o.height) ≠ (a.width, a.height) →
        find_differences lib o a
          = (imageDifference
               (lib.resize o (min o.width a.width, min o.height a.height))
               (lib.resize a (min o.width a.width, min o.height a.height)),
             lib.findContoursExternal (threshBin30 (grayOf lib (imageDifference
               (lib.resize o (min o.width a.width, min o.height a.height))
               (lib.resize a (min o.width a.width, min o.height a.height))))),
             threshBin30 (grayOf lib (imageDifference
               (lib.resize o (min o.width a.width, min o.height a.height))
               (lib.resize a (min o.width a.width, min o.height a.height))))))) := by
  refine ⟨?_, ?_, ?_⟩
  · simp [detect_flattened_annotations, List.map_map, Function.comp_def]
  · intro e he
    simp only [detect_flattened_annotations, List.mem_map, List.mem_range] at he
    obtain ⟨pageNum, _, rfl⟩ := he
    exact ⟨rfl, rfl⟩
  · intro o a
    constructor
    · intro hsz
      simp only [find_differences, hsz, ne_eq, not_true_eq_false, if_false]
    · intro hsz
      simp only [find_differences, ne_eq, hsz, not_false_eq_true, if_true]

/-- C5: analyze_contours discards a contour exactly when its area is below
min_area (100), and labels every kept contour by its bounding rectangle's
aspect ratio w/h alone, through the source's branch chain: 'line/arrow'
when w/h > 5 or w/h < 0.2; else 'square/circle' when 0.8 <= w/h <= 1.2;
else 'text/rectangle' when w/h > 2; else 'rectangle/shape' — each kept
contour getting exactly one of the four labels. -/
theorem c5_analyze_contours_classification (contours : List Contour)
    (c : Contour) (e : ContourInfo) (hh : 0 < c.h) :
    analyze_contours contours 100 = contours.filterMap (contourStep 100)
  ∧ (contourStep 100 c = none ↔ c.area < 100)
  ∧ (contourStep 100 c = some e →
      e.aspect_ratio = (c.w : ℚ) / (c.h : ℚ)
      ∧ (e.type = "line/arrow"
          ↔ (e.aspect_ratio > 5 ∨ e.aspect_ratio < 0.2))
      ∧ (e.type = "square/circle"
          ↔ (¬(e.aspect_ratio > 5 ∨ e.aspect_ratio < 0.2)
             ∧ 0.8 ≤ e.aspect_ratio ∧ e.aspect_ratio ≤ 1.2))
      ∧ (e.type = "text/rectangle"
          ↔ (¬(e.aspect_ratio > 5 ∨ e.aspect_ratio < 0.2)
             ∧ ¬(0.8 ≤ e.aspect_ratio ∧ e.aspect_ratio ≤ 1.2)
             ∧ e.aspect_ratio > 2))
      ∧ (e.type = "rectangle/shape"
          ↔ (¬(e.aspect_ratio > 5 ∨ e.aspect_ratio < 0.2)
             ∧ ¬(0.8 ≤ e.aspect_ratio ∧ e.aspect_ratio ≤ 1.2)
             ∧ ¬e.aspect_ratio > 2))) := by
  refine ⟨rfl, ?_, ?_⟩
  · constructor
    · intro hnone
      by_contra hlt
      simp only [contourStep, if_neg hlt] at hnone
      exact Option.noConfusion hnone
    · intro hlt
      simp only [contourStep, if_pos hlt]
  · intro hsome
    by_cases hlt : c.area < 100
    · simp only [contourStep, if_pos hlt] at hsome
      exact Option.noConfusion hsome
    · simp only [contourStep, if_neg hlt, Option.some.injEq] at hsome
      subst hsome
      refine ⟨rfl, ?_, ?_, ?_, ?_⟩ <;>
        · show classifyAspect ((c.w : ℚ) / (c.h : ℚ)) = _ ↔ _
          unfold classifyAspect
          by_cases h1 : ((c.w : ℚ) / (c.h : ℚ)) > 5 ∨ ((c.w : ℚ) / (c.h : ℚ)) < 0.2
          · simp only [if_pos h1]
            simp [h1]
          · rw [if_neg h1]
            by_cases h2 : (0.8 : ℚ) ≤ (c.w : ℚ) / (c.h : ℚ) ∧ ((c.w : ℚ) / (c.h : ℚ)) ≤ 1.2
            · simp only [if_pos h2]
              simp [h1, h2]
            · rw [if_neg h2]
              by_cases h3 : ((c.w : ℚ) / (c.h : ℚ)) > 2
              · simp only [if_pos h3]
                simp [h1, h2, h3]
              · simp only [if_neg h3]
                simp [h1, h2, h3]

/-- Witness for C5 at a concrete contour list and contour: one kept
square-ish contour and one discarded small contour. -/
theorem c5_analyze_contours_witness :
    (0 < (⟨400, 3, 4, 20, 20⟩ : Contour).h)
    ∧ (analyze_contours [⟨400, 3, 4, 20, 20⟩, ⟨50, 0, 0, 5, 5⟩] 100
        = [⟨400, 3, 4, 20, 20⟩, ⟨50, 0, 0, 5, 5⟩].filterMap (contourStep 100)) :=
  ⟨by decide,
   (c5_analyze_contours_classification [⟨400, 3, 4, 20, 20⟩, ⟨50, 0, 0, 5, 5⟩]
      ⟨400, 3, 4, 20, 20⟩
      { type := "square/circle", bbox := (3, 4, 20, 20), area := 400, aspect_ratio := 1 }
      (by decide)).1⟩

/-! Annotation-text detection (claims C2, C6 and C9,
ocr_annotation_detector.py).  A page's text dictionary (page.get_text("dict"))
is a list of blocks, each block optionally carrying lines of spans; a span
carries font, size, colour, text and bounding box as the script reads them. -/

/-- One text span of the page dictionary; colour and text are read with
span.get and so may be absent. -/
structure Span where
  font : String
  size : ℚ
  color? : Option ℤ
  text? : Option String
  bbox : ℚ × ℚ × ℚ × ℚ
deriving DecidableEq

/-- One line of a text block. -/
structure TextLine where
  spans : List Span
deriving DecidableEq

/-- One block of the page dictionary; blocks without a "lines" key (image
blocks) are skipped by the loops. -/
structure Block where
  lines? : Option (List TextLine)
deriving DecidableEq

/-- The page dictionary: its blocks and its optional width and height. -/
structure TextBlocks where
  blocks : List Block
  width? : Option ℚ
  height? : Option ℚ
deriving DecidableEq

/-- All spans of a page in iteration order: blocks, then lines, then spans;
blocks without lines contribute nothing (the loops' continue). -/
def allSpans (tb : TextBlocks) : List Span :=
  tb.blocks.flatMap (fun b => (b.lines?.getD []).flatMap (fun l => l.spans))

/-- Rounding half to even, as Python round does on these values. -/
def roundHalfEven (q : ℚ) : ℤ :=
  if Int.fract q < 1/2 then ⌊q⌋
  else if 1/2 < Int.fract q then ⌊q⌋ + 1
  else if Even ⌊q⌋ then ⌊q⌋ else ⌊q⌋ + 1

/-- Python round(x, 1) on the rational model of span sizes (line 70). -/
def pyRound1 (q : ℚ) : ℚ := (roundHalfEven (10 * q) : ℚ) / 10

/-- Each element of the list not already seen, in order of first
occurrence. -/
def firstOccsAux {α : Type} [DecidableEq α] : List α → List α → List α
  | [], _ => []
  | a :: l, seen =>
      if a ∈ seen then firstOccsAux l seen else a :: firstOccsAux l (a :: seen)

/-- The keys of a Python dict built by counting occurrences: each value
once, in order of first occurrence. -/
def firstOccs {α : Type} [DecidableEq α] (l : List α) : List α :=
  firstOccsAux l []

/-- Python max(items, key=count)[0] over dict items: the earliest key whose
count is maximal (max keeps the current item on ties). -/
def firstMaxBy {α : Type} (cnt : α → ℕ) : List α → Option α
  | [] => none
  | a :: l =>
      match firstMaxBy cnt l with
      | none => some a
      | some b => if cnt a < cnt b then some b else some a

/-- A counting dict as an association list in key insertion order. -/
def countDict {α : Type} [DecidableEq α] (l : List α) : List (α × ℕ) :=
  (firstOccs l).map (fun a => (a, l.count a))

/-- The record analyze_text_characteristics returns (lines 82-89). -/
structure Characteristics where
  main_font : String
  main_size : ℚ
  main_color : ℤ
  all_fonts : List (String × ℕ)
  all_sizes : List (ℚ × ℕ)
  all_colors : List (ℤ × ℕ)
deriving DecidableEq

/-- Embedding of analyze_text_characteristics (ocr_annotation_detector.py
lines 58-89): count each span's font, rounded size and colour (defaulting
to black, 0); the main characteristics are the most frequent ones, with
defaults "unknown", 12 and 0 when the page has no spans. -/
def analyze_text_characteristics (tb : TextBlocks) : Characteristics :=
  let fonts := (allSpans tb).map Span.font
  let sizes := (allSpans tb).map (fun s => pyRound1 s.size)
  let colors := (allSpans tb).map (fun s => s.color?.getD 0)
  { main_font := (firstMaxBy (fun f => fonts.count f) (firstOccs fonts)).getD "unknown"
    main_size := (firstMaxBy (fun z => sizes.count z) (firstOccs sizes)).getD 12
    main_color := (firstMaxBy (fun z => colors.count z) (firstOccs colors)).getD 0
    all_fonts := countDict fonts
    all_sizes := countDict sizes
    all_colors := countDict colors }

/-- The record find_potential_annotation_text appends per reported span
(lines 163-172). -/
structure PotentialAnnot where
  text : String
  font : String
  size : ℚ
  color : ℤ
  bbox : ℚ × ℚ × ℚ × ℚ
  score : ℕ
  reasons : List String
  in_margin : Bool
deriving DecidableEq

/-- The margin test of find_potential_annotation_text (lines 115-127): the
span's centre lies in the outer 10% of the page's width or height (width
and height defaulting to A4's 595 and 842). -/
def spanInMargin (tb : TextBlocks) (s : Span) : Prop :=
  (s.bbox.1 + s.bbox.2.2.1) / 2 < tb.width?.getD 595 * 0.1
  ∨ (s.bbox.1 + s.bbox.2.2.1) / 2 > tb.width?.getD 595 * 0.9
  ∨ (s.bbox.2.1 + s.bbox.2.2.2) / 2 < tb.height?.getD 842 * 0.1
  ∨ (s.bbox.2.1 + s.bbox.2.2.2) / 2 > tb.height?.getD 842 * 0.9

instance (tb : TextBlocks) (s : Span) : Decidable (spanInMargin tb s) := by
  unfold spanInMargin; infer_instance

/-- The score the body accumulates for one span (lines 129-160). -/
def spanScore (tb : TextBlocks) (chars : Characteristics) (s : Span) : ℕ :=
  (if s.font ≠ chars.main_font then 2 else 0)
  + (if |s.size - chars.main_size| > 2 then 2 else 0)
  + (if s.color?.getD 0 ≠ chars.main_color then 3 else 0)
  + (if spanInMargin tb s then 2 else 0)
  + (if (pyStrip (s.text?.getD "")).length < 50 then 1 else 0)
  + (if s.size < chars.main_size - 3 then 1
     else if s.size > chars.main_size + 5 then 1 else 0)

/-- The reasons the body accumulates for one span, in append order. -/
def spanReasons (tb : TextBlocks) (chars : Characteristics) (s : Span) : List String :=
  (if s.font ≠ chars.main_font then ["different font"] else [])
  ++ (if |s.size - chars.main_size| > 2 then ["different size"] else [])
  ++ (if s.color?.getD 0 ≠ chars.main_color then ["different color"] else [])
  ++ (if spanInMargin tb s then ["in margin"] else [])
  ++ (if (pyStrip (s.text?.getD "")).length < 50 then ["short text"] else [])
  ++ (if s.size < chars.main_size - 3 then ["smaller text"]
      else if s.size > chars.main_size + 5 then ["larger text"] else [])

/-- The per-span body of find_potential_annotation_text (lines 100-172):
skip a span whose stripped text is empty; score +2 for a font differing
from the main font, +2 for a size differing from the main size by more
than 2, +3 for a colour differing from the main colour, +2 for a centre in
the margins, +1 for text shorter than 50 characters, and +1 for a size
below main-3 or above main+5; report the span when the score is at least
3. -/
def spanEval (tb : TextBlocks) (chars : Characteristics) (s : Span) : Option PotentialAnnot :=
  if pyStrip (s.text?.getD "") = "" then none
  else if 3 ≤ spanScore tb chars s then
    some { text := pyStrip (s.text?.getD ""), font := s.font, size := s.size,
           color := s.color?.getD 0, bbox := s.bbox,
           score := spanScore tb chars s, reasons := spanReasons tb chars s,
           in_margin := decide (spanInMargin tb s) }
  else none

/-- Embedding of find_potential_annotation_text (lines 91-174): evaluate
every span of the page against the main characteristics and collect the
reported ones in iteration order. -/
def find_potential_annotation_text (tb : TextBlocks) (chars : Characteristics) :
    List PotentialAnnot :=
  (allSpans tb).filterMap (spanEval tb chars)

/-- The observable native-library calls of ocr_annotation_detector.py:
opening a document, reading a page's text dictionary, rendering a page to
an image (page.get_pixmap in pdf_page_to_image, lines 27-38), and running
pytesseract OCR on a page image (ocr_page, lines 48-56). -/
inductive OcrEvent
  | openDoc
  | readTextDict (pageNum : ℕ)
  | renderPage (pageNum : ℕ)
  | runOcr (pageNum : ℕ)
deriving DecidableEq

/-- Trace of get_pdf_text_blocks (lines 40-46): open the document and read
the page's text dictionary. -/
def get_pdf_text_blocks_trace (pageNum : ℕ) : List OcrEvent :=
  [OcrEvent.openDoc, OcrEvent.readTextDict pageNum]

/-- Trace the helper pdf_page_to_image of ocr_annotation_detector.py
(lines 27-38) would emit if called: open the document and render the page. -/
def pdf_page_to_image_trace (pageNum : ℕ) : List OcrEvent :=
  [OcrEvent.openDoc, OcrEvent.renderPage pageNum]

/-- Trace the helper ocr_page (lines 48-56) would emit if called on the
rendered image of a page: run pytesseract OCR on it. -/
def ocr_page_trace (pageNum : ℕ) : List OcrEvent :=
  [OcrEvent.runOcr pageNum]

/-- Embedding of detect_annotation_text (lines 176-243) with its trace of
library calls: open the document for the page count, then per page call
get_pdf_text_blocks, analyze_text_characteristics and
find_potential_annotation_text; return whether any potential annotation
text was found.  No call to pdf_page_to_image or ocr_page occurs anywhere
in its body. -/
def detect_annotation_text (doc : List TextBlocks) : List OcrEvent × Bool :=
  let pageResults := (List.range doc.length).map (fun pageNum =>
    let tb := doc.getD pageNum { blocks := [], width? := none, height? := none }
    (get_pdf_text_blocks_trace pageNum,
     find_potential_annotation_text tb (analyze_text_characteristics tb)))
  (OcrEvent.openDoc :: (pageResults.map Prod.fst).flatten,
   decide (0 < (pageResults.map (fun r => r.2.length)).sum))

/-- Membership in the aux traversal: an element is kept iff it occurs and
was not already seen. -/
theorem mem_firstOccsAux {α : Type} [DecidableEq α] (b : α) :
    ∀ (l seen : List α), b ∈ firstOccsAux l seen ↔ b ∈ l ∧ b ∉ seen := by
  intro l
  induction l with
  | nil => intro seen; simp [firstOccsAux]
  | cons a t ih =>
      intro seen
      by_cases ha : a ∈ seen
      · rw [firstOccsAux, if_pos ha, ih]
        constructor
        · rintro ⟨hbt, hbs⟩
          exact ⟨List.mem_cons_of_mem _ hbt, hbs⟩
        · rintro ⟨hbt, hbs⟩
          rcases List.mem_cons.mp hbt with rfl | hbt
          · exact absurd ha hbs
          · exact ⟨hbt, hbs⟩
      · rw [firstOccsAux, if_neg ha]
        simp only [List.mem_cons, ih]
        by_cases hba : b = a
        · simp [hba, ha]
        · simp [hba]

/-- firstOccs keeps exactly the members of the list. -/
theorem mem_firstOccs {α : Type} [DecidableEq α] (l : List α) (b : α) :
    b ∈ firstOccs l ↔ b ∈ l := by
  rw [firstOccs, mem_firstOccsAux]
  simp

/-- firstMaxBy returns none exactly on the empty list. -/
theorem firstMaxBy_eq_none {α : Type} (cnt : α → ℕ) (l : List α) :
    firstMaxBy cnt l = none ↔ l = [] := by
  cases l with
  | nil => simp [firstMaxBy]
  | cons a t =>
      simp only [firstMaxBy]
      cases firstMaxBy cnt t with
      | none => simp
      | some b => by_cases h : cnt a < cnt b <;> simp [h]

/-- firstMaxBy returns a member whose count bounds every member's count. -/
theorem firstMaxBy_mem_max {α : Type} (cnt : α → ℕ) :
    ∀ (l : List α) (b : α), firstMaxBy cnt l = some b →
      b ∈ l ∧ ∀ a ∈ l, cnt a ≤ cnt b := by
  intro l
  induction l with
  | nil => intro b h; cases h
  | cons a t ih =>
      intro b h
      simp only [firstMaxBy] at h
      cases ht : firstMaxBy cnt t with
      | none =>
          rw [ht] at h
          injection h with h
          subst h
          have ht0 : t = [] := (firstMaxBy_eq_none cnt t).mp ht
          subst ht0
          exact ⟨List.mem_cons_self _ _, by
            intro x hx
            rcases List.mem_cons.mp hx with rfl | hx
            · exact le_refl _
            · cases hx⟩
      | some c =>
          rw [ht] at h
          replace h : (if cnt a < cnt c then some c else some a) = some b := h
          obtain ⟨hmem, hbound⟩ := ih c ht
          by_cases hlt : cnt a < cnt c
          · rw [if_pos hlt] at h
            injection h with h
            subst h
            refine ⟨List.mem_cons_of_mem _ hmem, ?_⟩
            intro x hx
            rcases List.mem_cons.mp hx with rfl | hx
            · exact le_of_lt hlt
            · exact hbound x hx
          · rw [if_neg hlt] at h
            injection h with h
            subst h
            push_neg at hlt
            refine ⟨List.mem_cons_self _ _, ?_⟩
            intro x hx
            rcases List.mem_cons.mp hx with rfl | hx
            · exact le_refl _
            · exact le_trans (hbound x hx) hlt

/-- The most-frequent element computed the way
analyze_text_characteristics computes it: for a non-empty list it is a
member and its count bounds the count of every value. -/
theorem mainOf_spec {α : Type} [DecidableEq α] (l : List α) (d : α) (hl : l ≠ []) :
    ((firstMaxBy (fun a => l.count a) (firstOccs l)).getD d ∈ l)
    ∧ ∀ v : α, l.count v
        ≤ l.count ((firstMaxBy (fun a => l.count a) (firstOccs l)).getD d) := by
  cases hm : firstMaxBy (fun a => l.count a) (firstOccs l) with
  | none =>
      exfalso
      have h0 := (firstMaxBy_eq_none _ _).mp hm
      cases l with
      | nil => exact hl rfl
      | cons a t =>
          simp [firstOccs, firstOccsAux] at h0
  | some b =>
      obtain ⟨hmem, hbound⟩ := firstMaxBy_mem_max _ _ b hm
      rw [mem_firstOccs] at hmem
      refine ⟨by simpa [hm] using hmem, ?_⟩
      intro v
      by_cases hv : v ∈ l
      · have hv2 : v ∈ firstOccs l := (mem_firstOccs _ _).mpr hv
        simpa [hm] using hbound v hv2
      · simp [hm, List.count_eq_zero.mpr hv]

/-- C6: analyze_text_characteristics determines the main document font,
size and colour by frequency counting — each main value occurs among the
page's spans and its occurrence count is maximal over all values — and
returns the defaults "unknown", 12 and 0 when the page has no text spans. -/
theorem c6_main_text_characteristics (tb : TextBlocks) :
    (allSpans tb = [] →
      analyze_text_characteristics tb
        = { main_font := "unknown", main_size := 12, main_color := 0,
            all_fonts := [], all_sizes := [], all_colors := [] })
  ∧ (allSpans tb ≠ [] →
      ((analyze_text_characteristics tb).main_font ∈ (allSpans tb).map Span.font
        ∧ ∀ v : String, ((allSpans tb).map Span.font).count v
            ≤ ((allSpans tb).map Span.font).count
                (analyze_text_characteristics tb).main_font)
      ∧ ((analyze_text_characteristics tb).main_size
            ∈ (allSpans tb).map (fun s => pyRound1 s.size)
        ∧ ∀ v : ℚ, ((allSpans tb).map (fun s => pyRound1 s.size)).count v
            ≤ ((allSpans tb).map (fun s => pyRound1 s.size)).count
                (analyze_text_characteristics tb).main_size)
      ∧ ((analyze_text_characteristics tb).main_color
            ∈ (allSpans tb).map (fun s => s.color?.getD 0)
        ∧ ∀ v : ℤ, ((allSpans tb).map (fun s => s.color?.getD 0)).count v
            ≤ ((allSpans tb).map (fun s => s.color?.getD 0)).count
                (analyze_text_characteristics tb).main_color)) := by
  constructor
  · intro h
    simp [analyze_text_characteristics, h, firstOccs, firstOccsAux, firstMaxBy, countDict]
  · intro h
    have hfonts : (allSpans tb).map Span.font ≠ [] := by
      simpa using h
    have hsizes : (allSpans tb).map (fun s => pyRound1 s.size) ≠ [] := by
      simpa using h
    have hcolors : (allSpans tb).map (fun s => s.color?.getD 0) ≠ [] := by
      simpa using h
    exact ⟨mainOf_spec _ "unknown" hfonts, mainOf_spec _ 12 hsizes,
      mainOf_spec _ 0 hcolors⟩

/-- A colour difference alone already reaches the reporting threshold. -/
theorem three_le_spanScore_of_color (tb : TextBlocks) (chars : Characteristics)
    (s : Span) (h : s.color?.getD 0 ≠ chars.main_color) :
    3 ≤ spanScore tb chars s := by
  unfold spanScore
  rw [if_pos h]
  omega

/-- A differing colour is recorded among the reasons. -/
theorem color_mem_spanReasons (tb : TextBlocks) (chars : Characteristics)
    (s : Span) (h : s.color?.getD 0 ≠ chars.main_color) :
    "different color" ∈ spanReasons tb chars s := by
  unfold spanReasons
  rw [if_pos h]
  simp

/-- C9: every span with non-empty stripped text whose colour differs from
the page's most common text colour is reported by
find_potential_annotation_text — the colour difference alone contributes
score 3, which meets the threshold of 3 — regardless of its font, size or
position. -/
theorem c9_color_difference_reported (tb : TextBlocks) (s : Span)
    (hs : s ∈ allSpans tb)
    (htext : pyStrip (s.text?.getD "") ≠ "")
    (hcolor : s.color?.getD 0 ≠ (analyze_text_characteristics tb).main_color) :
    ∃ pa, spanEval tb (analyze_text_characteristics tb) s = some pa
      ∧ pa ∈ find_potential_annotation_text tb (analyze_text_characteristics tb)
      ∧ 3 ≤ pa.score
      ∧ "different color" ∈ pa.reasons
      ∧ pa.text = pyStrip (s.text?.getD "")
      ∧ pa.color = s.color?.getD 0
      ∧ pa.bbox = s.bbox := by
  have hscore := three_le_spanScore_of_color tb (analyze_text_characteristics tb) s hcolor
  have hsome : spanEval tb (analyze_text_characteristics tb) s
      = some { text := pyStrip (s.text?.getD ""), font := s.font, size := s.size,
               color := s.color?.getD 0, bbox := s.bbox,
               score := spanScore tb (analyze_text_characteristics tb) s,
               reasons := spanReasons tb (analyze_text_characteristics tb) s,
               in_margin := decide (spanInMargin tb s) } := by
    unfold spanEval
    rw [if_neg htext, if_pos hscore]
  refine ⟨_, hsome, ?_, hscore, ?_, rfl, rfl, rfl⟩
  · rw [find_potential_annotation_text, List.mem_filterMap]
    exact ⟨s, hs, hsome⟩
  · exact color_mem_spanReasons tb (analyze_text_characteristics tb) s hcolor

/-- Concrete one-page document for instantiating the C9 theorem: two spans
sharing a font and size, the second with a different colour. -/
def tbExample : TextBlocks :=
  { blocks := [{ lines? := some [{ spans :=
      [{ font := "Arial", size := 12, color? := some 0, text? := some "body",
         bbox := (100, 100, 200, 110) },
       { font := "Arial", size := 12, color? := some 255, text? := some "note",
         bbox := (100, 300, 200, 310) },
       { font := "Arial", size := 12, color? := some 0, text? := some "more",
         bbox := (100, 120, 200, 130) }] }] }]
    width? := some 595
    height? := some 842 }

/-- Witness for C9 at a concrete page: the differently coloured span is
reported. -/
theorem c9_color_difference_reported_witness :
    ∃ pa, spanEval tbExample (analyze_text_characteristics tbExample)
        { font := "Arial", size := 12, color? := some 255, text? := some "note",
          bbox := (100, 300, 200, 310) } = some pa
      ∧ pa ∈ find_potential_annotation_text tbExample
          (analyze_text_characteristics tbExample)
      ∧ 3 ≤ pa.score
      ∧ "different color" ∈ pa.reasons
      ∧ pa.text = pyStrip ((some "note" : Option String).getD "")
      ∧ pa.color = (some (255 : ℤ) : Option ℤ).getD 0
      ∧ pa.bbox = ((100 : ℚ), (300 : ℚ), (200 : ℚ), (310 : ℚ)) :=
  c9_color_difference_reported tbExample
    { font := "Arial", size := 12, color? := some 255, text? := some "note",
      bbox := (100, 300, 200, 310) }
    (by decide) (by decide) (by decide)

/-- C2 (refuting theorem): the detection pass of detect_annotation_text
never runs OCR and never renders a page — its trace holds only open and
text-dictionary reads — although the ocr_page helper would emit an OCR
event if it were called; in particular the concrete one-page document
tbExample is analyzed without a single OCR call. -/
theorem c2_detect_runs_no_ocr (doc : List TextBlocks) (pageNum k : ℕ) :
    OcrEvent.runOcr k ∉ (detect_annotation_text doc).1
  ∧ OcrEvent.renderPage k ∉ (detect_annotation_text doc).1
  ∧ OcrEvent.runOcr pageNum ∈ ocr_page_trace pageNum
  ∧ OcrEvent.runOcr 0 ∉ (detect_annotation_text [tbExample]).1 := by
  have key : ∀ (d : List TextBlocks) (j : ℕ),
      OcrEvent.runOcr j ∉ (detect_annotation_text d).1
      ∧ OcrEvent.renderPage j ∉ (detect_annotation_text d).1 := by
    intro d j
    constructor <;>
    · intro hmem
      simp only [detect_annotation_text, List.map_map, List.mem_cons] at hmem
      rcases hmem with h | hmem
      · cases h
      · rw [List.mem_flatten] at hmem
        obtain ⟨l, hl, hml⟩ := hmem
        simp only [List.mem_map, Function.comp] at hl
        obtain ⟨pn, _, rfl⟩ := hl
        simp [get_pdf_text_blocks_trace] at hml
  exact ⟨(key doc k).1, (key doc k).2, by simp [ocr_page_trace], (key [tbExample] 0).1⟩

end PdfAnnots
